import Mathlib

/-!
Verification of the threshold-governed analysis and decision engine of the
ChiefXD-Art moderation bot.

Shallow embedding conventions:
* Go float64 values are modelled as rationals (ℚ); none of the verified
  properties depends on binary rounding.
* A decoded JSON document (Go map[string]any) is modelled by JValue/JObj,
  objects as association lists.
* The SQL tables behind ThresholdsStore are modelled by a pure DB state;
  a SELECT that may fail at the driver level is modelled by per-table
  fault-injection flags, and ORDER BY created_at DESC by an insertion sort.
-/

/-- Compiled default for the NuditySuggestive threshold (analyse.go). -/
def DefaultNuditySuggestiveThreshold : ℚ := 0.75

/-- Compiled default for the NudityExplicit threshold (analyse.go). -/
def DefaultNudityExplicitThreshold : ℚ := 0.25

/-- Compiled default for the Offensive threshold (analyse.go). -/
def DefaultOffensiveThreshold : ℚ := 0.25

/-- Compiled default for the AIGenerated threshold (analyse.go). -/
def DefaultAIGeneratedThreshold : ℚ := 0.60

/-- A decoded JSON value, as produced by Go json.Unmarshal into map[string]any.
Numeric leaves (float64, float32, int, int64 in the Go type switch) collapse
into the num constructor. -/
inductive JValue : Type where
  | num (q : ℚ)
  | str (s : String)
  | obj (fields : List (String × JValue))
  | boolean (b : Bool)
  | null
  | arr (elems : List JValue)

/-- A decoded JSON object: Go map[string]any with unique keys, modelled as an
association list. -/
def JObj : Type := List (String × JValue)

/-- Key lookup in a decoded object (Go map indexing). -/
def jLookup (fields : JObj) (key : String) : Option JValue :=
  (List.find? (fun p => p.1 == key) fields).map Prod.snd

/-- getMap returns m[key] as a map if present, otherwise nil (source: getMap).
The Option on the argument models a possibly-nil Go map. -/
def getMap (m : Option JObj) (key : String) : Option JObj :=
  match m with
  | none => none
  | some fields =>
    match jLookup fields key with
    | some (JValue.obj mm) => some mm
    | _ => none

/-- getFloat extracts a numeric value from m[key]; 0 if the map is nil, the key
is missing, or the value is not a number (source: getFloat). -/
def getFloat (m : Option JObj) (key : String) : ℚ :=
  match m with
  | none => 0
  | some fields =>
    match jLookup fields key with
    | some (JValue.num q) => q
    | _ => 0

/-- maxFloat: maximum of the inputs computed by a loop whose accumulator starts
at 0.0 (source: maxFloat). -/
def maxFloat (vals : List ℚ) : ℚ :=
  vals.foldl (fun maximum v => if v > maximum then v else maximum) 0

/-- meanFloat: sum of the inputs divided by their count; 0 for an empty list
(source: meanFloat). -/
def meanFloat (vals : List ℚ) : ℚ :=
  if vals.isEmpty then 0 else vals.foldl (fun sum v => sum + v) 0 / (vals.length : ℚ)

/-- The four normalised category scores of an Analysis (source: Analysis.Scores). -/
structure Scores where
  nudityExplicit : ℚ
  nuditySuggestive : ℚ
  offensive : ℚ
  aiGenerated : ℚ
deriving DecidableEq

/-- Analysis summary of an API result (source: Analysis). -/
structure Analysis where
  allowed : Bool
  reasons : List String
  scores : Scores
  mediaURI : String
deriving DecidableEq

/-- The score-extraction portion of AnalyseResult (lines computing
a.Scores from the raw map). -/
def extractScores (out : JObj) : Scores :=
  let nudity := getMap (some out) "nudity"
  let off := getMap (some out) "offensive"
  let typ := getMap (some out) "type"
  { nudityExplicit := maxFloat
      [getFloat nudity "sexual_activity",
       getFloat nudity "sexual_display",
       getFloat nudity "erotica"]
    nuditySuggestive := meanFloat
      [getFloat nudity "very_suggestive",
       getFloat nudity "suggestive",
       getFloat nudity "mildly_suggestive"]
    offensive := maxFloat
      [getFloat off "nazi",
       getFloat off "asian_swastika",
       getFloat off "confederate",
       getFloat off "supremacist",
       getFloat off "terrorist"]
    aiGenerated := getFloat typ "ai_generated" }

/-- The media-URI extraction portion of AnalyseResult. -/
def extractMediaURI (out : JObj) : String :=
  match getMap (some out) "media" with
  | none => ""
  | some media =>
    match jLookup media "uri" with
    | some (JValue.str uri) => uri
    | _ => ""

/-- The reason-building portion of AnalyseResult: one append per
score/threshold pair, in source order. -/
def buildReasons (s : Scores) (nsThresh neThresh offThresh aiThresh : ℚ) : List String :=
  (if s.nudityExplicit ≥ neThresh then ["nudity_explicit"] else []) ++
  (if s.nuditySuggestive ≥ nsThresh then ["nudity_suggestive"] else []) ++
  (if s.offensive ≥ offThresh then ["offensive_symbols"] else []) ++
  (if s.aiGenerated ≥ aiThresh then ["ai_generated_high"] else [])

/-- AnalyseResult converts the raw map into an Analysis summary using the
provided thresholds (source: AnalyseResult). -/
def AnalyseResult (out : JObj) (nsThresh neThresh offThresh aiThresh : ℚ) : Analysis :=
  let sc := extractScores out
  let reasons := buildReasons sc nsThresh neThresh offThresh aiThresh
  { allowed := reasons.isEmpty
    reasons := reasons
    scores := sc
    mediaURI := extractMediaURI out }

/-- Plain three-way maximum, following the spec sentence
"nudity_explicit = max(sexual_activity, sexual_display, erotica)" verbatim,
for comparison with the extraction the source performs. -/
def specMaxOf3 (a b c : ℚ) : ℚ := max a (max b c)

/-- One row of the thresholds_history audit table (source: ThresholdChange).
created models the created_at column the database assigns at insert time. -/
structure HistRow where
  name : String
  oldValue : Option ℚ
  newValue : ℚ
  userID : String
  guildID : String
  created : Int
deriving DecidableEq

/-- The persistent state behind a configured PermStore database: the
thresholds_guild table (guild_id, name, value with primary key (guild_id,
name)), the global thresholds table (name primary key), and the
thresholds_history table.  The fail flags inject a driver-level error into
the corresponding SELECT, modelling a store outage. -/
structure DB where
  guildTable : List (String × String × ℚ)
  globalTable : List (String × ℚ)
  history : List HistRow
  failGuildRead : Bool
  failGlobalRead : Bool
  failHistoryRead : Bool
deriving DecidableEq

/-- SELECT name, value FROM thresholds_guild WHERE guild_id = $1; errors when
the injected fault flag is set. -/
def queryGuildRows (db : DB) (guildID : String) : Except Unit (List (String × ℚ)) :=
  if db.failGuildRead then Except.error ()
  else Except.ok ((db.guildTable.filter (fun r => r.1 == guildID)).map (fun r => r.2))

/-- SELECT name, value FROM thresholds; errors when the injected fault flag is
set. -/
def queryGlobalRows (db : DB) : Except Unit (List (String × ℚ)) :=
  if db.failGlobalRead then Except.error ()
  else Except.ok db.globalTable

/-- One iteration of the guild-row loop in GetGuildThresholds: the switch on
the row name overwrites the matching component. -/
def applyGuildRow (acc : ℚ × ℚ × ℚ × ℚ) (row : String × ℚ) : ℚ × ℚ × ℚ × ℚ :=
  if row.1 = "NuditySuggestive" then (row.2, acc.2.1, acc.2.2.1, acc.2.2.2)
  else if row.1 = "NudityExplicit" then (acc.1, row.2, acc.2.2.1, acc.2.2.2)
  else if row.1 = "Offensive" then (acc.1, acc.2.1, row.2, acc.2.2.2)
  else if row.1 = "AIGenerated" then (acc.1, acc.2.1, acc.2.2.1, row.2)
  else acc

/-- One iteration of the global-row loop in GetGuildThresholds: a global row
overwrites a component only while that component still equals its compiled
default. -/
def applyGlobalRow (acc : ℚ × ℚ × ℚ × ℚ) (row : String × ℚ) : ℚ × ℚ × ℚ × ℚ :=
  if row.1 = "NuditySuggestive" then
    (if acc.1 = DefaultNuditySuggestiveThreshold then row.2 else acc.1,
     acc.2.1, acc.2.2.1, acc.2.2.2)
  else if row.1 = "NudityExplicit" then
    (acc.1, if acc.2.1 = DefaultNudityExplicitThreshold then row.2 else acc.2.1,
     acc.2.2.1, acc.2.2.2)
  else if row.1 = "Offensive" then
    (acc.1, acc.2.1,
     if acc.2.2.1 = DefaultOffensiveThreshold then row.2 else acc.2.2.1, acc.2.2.2)
  else if row.1 = "AIGenerated" then
    (acc.1, acc.2.1, acc.2.2.1,
     if acc.2.2.2 = DefaultAIGeneratedThreshold then row.2 else acc.2.2.2)
  else acc

/-- The compiled-default quadruple (ns, ne, off, ai). -/
def defaultQuad : ℚ × ℚ × ℚ × ℚ :=
  (DefaultNuditySuggestiveThreshold, DefaultNudityExplicitThreshold,
   DefaultOffensiveThreshold, DefaultAIGeneratedThreshold)

/-- GetGuildThresholds returns the active thresholds (ns, ne, off, ai) for a
guild: start from the compiled defaults, overlay the guild rows, then fill
from the global table any value still equal to its default; a failed SELECT is
silently skipped (source: GetGuildThresholds). -/
def GetGuildThresholds (ps : Option DB) (guildID : String) : ℚ × ℚ × ℚ × ℚ :=
  match ps with
  | none => defaultQuad
  | some db =>
    if guildID = "" then defaultQuad
    else
      let t1 := match queryGuildRows db guildID with
        | Except.ok rows => rows.foldl applyGuildRow defaultQuad
        | Except.error _ => defaultQuad
      match queryGlobalRows db with
      | Except.ok rows => rows.foldl applyGlobalRow t1
      | Except.error _ => t1

/-- Primary-key upsert on thresholds_guild rows: replace the (guild_id, name)
row when present, append otherwise (the ON CONFLICT clause of SetGuild). -/
def upsertRow (table : List (String × String × ℚ)) (guildID name : String) (v : ℚ) :
    List (String × String × ℚ) :=
  if table.any (fun r => r.1 == guildID && r.2.1 == name) then
    table.map (fun r => if r.1 == guildID && r.2.1 == name then (guildID, name, v) else r)
  else table ++ [(guildID, name, v)]

/-- SetGuild upserts a single guild-specific threshold; a no-op success when no
database is configured.  No name validation and no audit write happen here
(source: SetGuild). -/
def SetGuild (ps : Option DB) (guildID name : String) (value : ℚ) : Option DB :=
  match ps with
  | none => none
  | some db => some { db with guildTable := upsertRow db.guildTable guildID name value }

/-- LogChange appends one audit row to thresholds_history; a no-op when no
database is configured.  The timestamp the database would assign is passed
explicitly (source: LogChange). -/
def LogChange (ps : Option DB) (name : String) (oldVal newVal : ℚ)
    (userID guildID : String) (now : Int) : Option DB :=
  match ps with
  | none => none
  | some db =>
    some { db with history := db.history ++
      [{ name := name, oldValue := some oldVal, newValue := newVal,
         userID := userID, guildID := guildID, created := now }] }

/-- defaultThresholdValue: built-in default for a canonical name, 0 otherwise
(source: defaultThresholdValue). -/
def defaultThresholdValue (name : String) : ℚ :=
  if name = "NuditySuggestive" then DefaultNuditySuggestiveThreshold
  else if name = "NudityExplicit" then DefaultNudityExplicitThreshold
  else if name = "Offensive" then DefaultOffensiveThreshold
  else if name = "AIGenerated" then DefaultAIGeneratedThreshold
  else 0

/-- currentGuildThresholdValue: the effective guild value for a canonical name
(source: currentGuildThresholdValue). -/
def currentGuildThresholdValue (ps : Option DB) (guildID name : String) : ℚ :=
  let q := GetGuildThresholds ps guildID
  if name = "NuditySuggestive" then q.1
  else if name = "NudityExplicit" then q.2.1
  else if name = "Offensive" then q.2.2.1
  else if name = "AIGenerated" then q.2.2.2
  else 0

/-- Drop leading and trailing whitespace from a character list. -/
def trimChars (cs : List Char) : List Char :=
  ((cs.dropWhile Char.isWhitespace).reverse.dropWhile Char.isWhitespace).reverse

/-- Model of Go strings.TrimSpace. -/
def strTrim (s : String) : String := String.mk (trimChars s.data)

/-- Model of Go strings.HasSuffix. -/
def strHasSuffix (s t : String) : Bool := t.data.isSuffixOf s.data

/-- Drop the final character: Go strings.TrimSuffix with a one-character
suffix already known to be present. -/
def strDropLast (s : String) : String := String.mk s.data.dropLast

/-- Model of Go strings.ToLower (ASCII names only in this code base). -/
def strToLower (s : String) : String := String.mk (s.data.map Char.toLower)

/-- Value of the digit list read as a base-10 natural number. -/
def digitsToNat (ds : List Char) : ℕ :=
  ds.foldl (fun acc c => acc * 10 + (c.toNat - 48)) 0

/-- Parse a mantissa (digits, optionally with a decimal point); at least one
digit must be present on one side of the point. -/
def parseMantissa (cs : List Char) : Option ℚ :=
  let intPart := cs.takeWhile Char.isDigit
  let rest := cs.dropWhile Char.isDigit
  match rest with
  | [] => if intPart.isEmpty then none else some (digitsToNat intPart : ℚ)
  | c :: fracRest =>
    if c = '.' then
      let frac := fracRest.takeWhile Char.isDigit
      let rest2 := fracRest.dropWhile Char.isDigit
      if rest2.isEmpty then
        if intPart.isEmpty && frac.isEmpty then none
        else some ((digitsToNat intPart : ℚ) + (digitsToNat frac : ℚ) / (10 : ℚ) ^ frac.length)
      else none
    else none

/-- Split a character list at the first exponent marker e or E. -/
def splitAtExp : List Char → List Char × Option (List Char)
  | [] => ([], none)
  | c :: cs =>
    if c = 'e' ∨ c = 'E' then ([], some cs)
    else
      let p := splitAtExp cs
      (c :: p.1, p.2)

/-- Parse an optionally signed, non-empty digit string as an integer. -/
def parseSignedInt (cs : List Char) : Option Int :=
  let p : Int × List Char :=
    match cs with
    | '+' :: r => (1, r)
    | '-' :: r => (-1, r)
    | r => (1, r)
  if p.2.isEmpty ∨ ¬ p.2.all Char.isDigit then none
  else some (p.1 * (digitsToNat p.2 : Int))

/-- Model of Go strconv.ParseFloat restricted to its decimal forms: optional
sign, decimal mantissa, optional decimal exponent.  Hexadecimal floats, inf,
NaN and digit-separating underscores are not modelled; no input relevant to
threshold parsing uses them. -/
def parseFloatQ (s : String) : Option ℚ :=
  match s.data with
  | [] => none
  | cs =>
    let sp : ℚ × List Char :=
      match cs with
      | '+' :: r => (1, r)
      | '-' :: r => (-1, r)
      | r => (1, r)
    let me := splitAtExp sp.2
    match parseMantissa me.1 with
    | none => none
    | some m =>
      match me.2 with
      | none => some (sp.1 * m)
      | some e =>
        match parseSignedInt e with
        | none => none
        | some z => some (sp.1 * m * (10 : ℚ) ^ z)

/-- parseThresholdValue parses a user-entered value, dividing by 100 when a
trailing percent sign is present (source: parseThresholdValue). -/
def parseThresholdValue (input : String) : Except Unit ℚ :=
  let s := strTrim input
  if strHasSuffix s "%" then
    let p := strDropLast s
    match parseFloatQ (strTrim p) with
    | some f => Except.ok (f / 100)
    | none => Except.error ()
  else
    match parseFloatQ s with
    | some f => Except.ok f
    | none => Except.error ()

/-- The numeric text parseThresholdValue hands to the float parser: the
trimmed input with a trailing percent sign (and surrounding space) removed. -/
def stripPercent (input : String) : String :=
  let s := strTrim input
  if strHasSuffix s "%" then strTrim (strDropLast s) else s

/-- canonicalThresholdName normalizes a user-supplied threshold name
(case-insensitive, accepting aliases) to one of the four canonical names
(source: canonicalThresholdName). -/
def canonicalThresholdName (input : String) : Option String :=
  let s := strToLower (strTrim input)
  if s = "nuditysuggestive" ∨ s = "suggestive" ∨ s = "nudity_suggestive" then
    some "NuditySuggestive"
  else if s = "nudityexplicit" ∨ s = "explicit" ∨ s = "nudity_explicit" then
    some "NudityExplicit"
  else if s = "offensive" ∨ s = "offensive_symbols" ∨ s = "offensivesymbols" then
    some "Offensive"
  else if s = "aigenerated" ∨ s = "ai" ∨ s = "genai" ∨ s = "ai_generated" then
    some "AIGenerated"
  else none

/-- The user-visible failures of the /thresholds set handler. -/
inductive SetError : Type where
  | usage
  | badValue
  | unknownThreshold
deriving DecidableEq

/-- The /thresholds set branch of handleThresholds: trim the arguments, parse
and range-check the value, normalize the name (rejecting unknown names), read
the old effective value, upsert the guild row via SetGuild, then append the
audit row via a separate LogChange call (source: handleThresholds, case
"set"). -/
def handleThresholdsSet (ps : Option DB) (guildID userID nameRaw valueRaw : String)
    (now : Int) : Except SetError (Option DB) :=
  let name := strTrim nameRaw
  let valueStr := strTrim valueRaw
  if name = "" ∨ valueStr = "" then Except.error SetError.usage
  else
    match parseThresholdValue valueStr with
    | Except.error _ => Except.error SetError.badValue
    | Except.ok val =>
      if val < 0 ∨ val > 1 then Except.error SetError.badValue
      else
        match canonicalThresholdName name with
        | none => Except.error SetError.unknownThreshold
        | some canonical =>
          let old := currentGuildThresholdValue ps guildID canonical
          let ps1 := SetGuild ps guildID canonical val
          Except.ok (LogChange ps1 canonical old val userID guildID now)

/-- Insert a history row into a list sorted by non-increasing created_at,
keeping it sorted. -/
def insertDesc (r : HistRow) : List HistRow → List HistRow
  | [] => [r]
  | x :: xs => if x.created ≤ r.created then r :: x :: xs else x :: insertDesc r xs

/-- Sort history rows by non-increasing created_at (ORDER BY created_at DESC). -/
def sortByCreatedDesc : List HistRow → List HistRow
  | [] => []
  | x :: xs => insertDesc x (sortByCreatedDesc xs)

/-- HistoryForGuild returns recent changes for a guild, newest first, bounded
by the limit (a limit outside (0, 100] is replaced by 10); an empty list and
no error when no database is configured (source: HistoryForGuild). -/
def HistoryForGuild (ps : Option DB) (guildID : String) (limit : Int) :
    Except Unit (List HistRow) :=
  match ps with
  | none => Except.ok []
  | some db =>
    let lim := if limit ≤ 0 ∨ limit > 100 then 10 else limit
    if db.failHistoryRead then Except.error ()
    else
      Except.ok (((sortByCreatedDesc (db.history.filter
        (fun r => r.guildID == guildID))).take lim.toNat))

/-- The (name, value) rows of thresholds_guild belonging to one guild, in
table order. -/
def guildRowsFor (db : DB) (g : String) : List (String × ℚ) :=
  (db.guildTable.filter (fun r => r.1 == g)).map (fun r => r.2)

/-- Value of the last row with the given name, or the supplied default:
the per-name residue of the guild-row loop. -/
def lastVal (rows : List (String × ℚ)) (k : String) (d : ℚ) : ℚ :=
  rows.foldl (fun acc r => if r.1 = k then r.2 else acc) d

/-- The per-name residue of the global-row loop: starting from x, a row named
k overwrites the accumulator only while it equals the compiled default d. -/
def globAfter (rows : List (String × ℚ)) (k : String) (d x : ℚ) : ℚ :=
  rows.foldl (fun acc r => if r.1 = k ∧ acc = d then r.2 else acc) x

/-- The tenant-scoped stored value for a name, when the guild table holds at
most one row per (guild, name) key. -/
def tenantVal (db : DB) (g k : String) : Option ℚ :=
  ((guildRowsFor db g).find? (fun r => r.1 == k)).map (fun r => r.2)

/-- The global stored value for a name, when the global table holds at most
one row per name key. -/
def globalVal (db : DB) (k : String) : Option ℚ :=
  (db.globalTable.find? (fun r => r.1 == k)).map (fun r => r.2)

/-- The resolution rule as the spec states it: tenant value (if set), then
global value (if set), then compiled default — a set tenant value always
wins. -/
def resolveSpec (tv gv : Option ℚ) (d : ℚ) : ℚ :=
  match tv with
  | some v => v
  | none => gv.getD d

/-- The resolution rule the source implements: a set tenant value wins only
when it differs from the compiled default; a tenant value equal to the
default is indistinguishable from an unset one and yields to a set global
value. -/
def resolveCode (tv gv : Option ℚ) (d : ℚ) : ℚ :=
  match tv with
  | some v => if v = d then gv.getD v else v
  | none => gv.getD d

/-- The four canonical threshold names. -/
def canonicalNames : List String :=
  ["NuditySuggestive", "NudityExplicit", "Offensive", "AIGenerated"]

/-- The loop body of maxFloat is the binary maximum. -/
theorem maxFloat_step_eq_max (m v : ℚ) : (if v > m then v else m) = max m v := by
  rcases lt_or_le m v with h | h
  · simp [h, max_eq_right h.le]
  · simp [not_lt.mpr h, max_eq_left h]

/-- maxFloat is a fold of the binary maximum started at 0. -/
theorem maxFloat_eq_foldl_max (vals : List ℚ) :
    maxFloat vals = vals.foldl max 0 := by
  unfold maxFloat
  have h : (fun maximum v : ℚ => if v > maximum then v else maximum) = max := by
    funext m v
    exact maxFloat_step_eq_max m v
  rw [h]

/-- maxFloat never returns a negative value: the accumulator starts at 0. -/
theorem maxFloat_nonneg (vals : List ℚ) : 0 ≤ maxFloat vals := by
  rw [maxFloat_eq_foldl_max]
  have h : ∀ (l : List ℚ) (acc : ℚ), 0 ≤ acc → 0 ≤ l.foldl max acc := by
    intro l
    induction l with
    | nil => intro acc h; simpa using h
    | cons x xs ih =>
      intro acc h
      exact ih (max acc x) (le_trans h (le_max_left acc x))
  exact h vals 0 le_rfl

/-- maxFloat on three inputs is the plain maximum floored at 0. -/
theorem maxFloat_three (a b c : ℚ) : maxFloat [a, b, c] = max 0 (max a (max b c)) := by
  rw [maxFloat_eq_foldl_max]
  simp [List.foldl, max_assoc]

/-- maxFloat on five inputs is the plain maximum floored at 0. -/
theorem maxFloat_five (a b c d e : ℚ) :
    maxFloat [a, b, c, d, e] = max 0 (max a (max b (max c (max d e)))) := by
  rw [maxFloat_eq_foldl_max]
  simp [List.foldl, max_assoc]

/-- meanFloat on three inputs is their sum divided by 3. -/
theorem meanFloat_three (a b c : ℚ) : meanFloat [a, b, c] = (a + b + c) / 3 := by
  unfold meanFloat
  norm_num

/-- Componentwise description of one guild-row loop iteration. -/
theorem applyGuildRow_comp (acc : ℚ × ℚ × ℚ × ℚ) (r : String × ℚ) :
    applyGuildRow acc r =
      (if r.1 = "NuditySuggestive" then r.2 else acc.1,
       if r.1 = "NudityExplicit" then r.2 else acc.2.1,
       if r.1 = "Offensive" then r.2 else acc.2.2.1,
       if r.1 = "AIGenerated" then r.2 else acc.2.2.2) := by
  unfold applyGuildRow
  split_ifs with h1 h2 h3 h4 <;> simp_all

/-- The guild-row loop acts independently on each of the four components. -/
theorem foldl_applyGuildRow (rows : List (String × ℚ)) (init : ℚ × ℚ × ℚ × ℚ) :
    rows.foldl applyGuildRow init =
      (lastVal rows "NuditySuggestive" init.1,
       lastVal rows "NudityExplicit" init.2.1,
       lastVal rows "Offensive" init.2.2.1,
       lastVal rows "AIGenerated" init.2.2.2) := by
  induction rows generalizing init with
  | nil => simp [lastVal]
  | cons r rs ih =>
    rw [List.foldl_cons, ih (applyGuildRow init r), applyGuildRow_comp]
    simp [lastVal, List.foldl_cons]

/-- Componentwise description of one global-row loop iteration. -/
theorem applyGlobalRow_comp (acc : ℚ × ℚ × ℚ × ℚ) (r : String × ℚ) :
    applyGlobalRow acc r =
      (if r.1 = "NuditySuggestive" ∧ acc.1 = DefaultNuditySuggestiveThreshold then r.2 else acc.1,
       if r.1 = "NudityExplicit" ∧ acc.2.1 = DefaultNudityExplicitThreshold then r.2 else acc.2.1,
       if r.1 = "Offensive" ∧ acc.2.2.1 = DefaultOffensiveThreshold then r.2 else acc.2.2.1,
       if r.1 = "AIGenerated" ∧ acc.2.2.2 = DefaultAIGeneratedThreshold then r.2 else acc.2.2.2) := by
  unfold applyGlobalRow
  split_ifs with h1 h2 h3 h4 <;> simp_all

/-- The global-row loop acts independently on each of the four components. -/
theorem foldl_applyGlobalRow (rows : List (String × ℚ)) (init : ℚ × ℚ × ℚ × ℚ) :
    rows.foldl applyGlobalRow init =
      (globAfter rows "NuditySuggestive" DefaultNuditySuggestiveThreshold init.1,
       globAfter rows "NudityExplicit" DefaultNudityExplicitThreshold init.2.1,
       globAfter rows "Offensive" DefaultOffensiveThreshold init.2.2.1,
       globAfter rows "AIGenerated" DefaultAIGeneratedThreshold init.2.2.2) := by
  induction rows generalizing init with
  | nil => simp [globAfter]
  | cons r rs ih =>
    rw [List.foldl_cons, ih (applyGlobalRow init r), applyGlobalRow_comp]
    simp [globAfter, List.foldl_cons]

/-- Per-name characterization of GetGuildThresholds for a configured store, a
real tenant, and successful reads: each component is the guild-row residue
passed through the default-gated global pass. -/
theorem GetGuildThresholds_char (db : DB) (g : String) (hg : g ≠ "")
    (hfg : db.failGuildRead = false) (hfp : db.failGlobalRead = false) :
    GetGuildThresholds (some db) g =
      (globAfter db.globalTable "NuditySuggestive" DefaultNuditySuggestiveThreshold
        (lastVal (guildRowsFor db g) "NuditySuggestive" DefaultNuditySuggestiveThreshold),
       globAfter db.globalTable "NudityExplicit" DefaultNudityExplicitThreshold
        (lastVal (guildRowsFor db g) "NudityExplicit" DefaultNudityExplicitThreshold),
       globAfter db.globalTable "Offensive" DefaultOffensiveThreshold
        (lastVal (guildRowsFor db g) "Offensive" DefaultOffensiveThreshold),
       globAfter db.globalTable "AIGenerated" DefaultAIGeneratedThreshold
        (lastVal (guildRowsFor db g) "AIGenerated" DefaultAIGeneratedThreshold)) := by
  unfold GetGuildThresholds queryGuildRows queryGlobalRows
  simp only [hg, hfg, hfp, if_false, Bool.false_eq_true]
  rw [foldl_applyGuildRow, foldl_applyGlobalRow]
  rfl

/-- lastVal is unchanged by rows whose name is different. -/
theorem lastVal_of_forall_ne (k : String) :
    ∀ (rows : List (String × ℚ)) (d : ℚ), (∀ r ∈ rows, r.1 ≠ k) → lastVal rows k d = d := by
  intro rows
  induction rows with
  | nil => intro d h; rfl
  | cons r rs ih =>
    intro d h
    have hr : r.1 ≠ k := h r (List.mem_cons_self r rs)
    have hrs : ∀ r2 ∈ rs, r2.1 ≠ k := fun r2 hm => h r2 (List.mem_cons_of_mem r hm)
    simp only [lastVal, List.foldl_cons, if_neg hr]
    exact ih d hrs

/-- With at most one row named k, lastVal is the looked-up value or the
default. -/
theorem lastVal_of_unique (k : String) :
    ∀ (rows : List (String × ℚ)) (d : ℚ),
      rows.countP (fun r => r.1 == k) ≤ 1 →
      lastVal rows k d = ((rows.find? (fun r => r.1 == k)).map (fun r => r.2)).getD d := by
  intro rows
  induction rows with
  | nil => intro d h; rfl
  | cons r rs ih =>
    intro d h
    by_cases hr : r.1 = k
    · have hcount : rs.countP (fun r : String × ℚ => r.1 == k) = 0 := by
        rw [List.countP_cons,
          if_pos (show ((fun r : String × ℚ => r.1 == k) r) = true by simp [hr])] at h
        omega
      have hall : ∀ r2 ∈ rs, r2.1 ≠ k := by
        intro r2 hm hk2
        have hnp := List.countP_eq_zero.mp hcount r2 hm
        simp [hk2] at hnp
      have hfind : List.find? (fun r : String × ℚ => r.1 == k) (r :: rs) = some r := by
        simp [hr]
      simp only [lastVal, List.foldl_cons, if_pos hr, hfind]
      simpa using lastVal_of_forall_ne k rs r.2 hall
    · have hpr : ¬ ((fun r : String × ℚ => r.1 == k) r = true) := by simp [hr]
      have hrest : rs.countP (fun r : String × ℚ => r.1 == k) ≤ 1 := by
        rw [List.countP_cons, if_neg hpr] at h
        omega
      have hfind : List.find? (fun r : String × ℚ => r.1 == k) (r :: rs)
          = List.find? (fun r : String × ℚ => r.1 == k) rs := by
        simp [hr]
      simp only [lastVal, List.foldl_cons, if_neg hr, hfind]
      exact ih d hrest

/-- globAfter never changes an accumulator already different from the
default. -/
theorem globAfter_of_ne (k : String) :
    ∀ (rows : List (String × ℚ)) (d x : ℚ), x ≠ d → globAfter rows k d x = x := by
  intro rows
  induction rows with
  | nil => intro d x h; rfl
  | cons r rs ih =>
    intro d x h
    have hc : ¬ (r.1 = k ∧ x = d) := fun hand => h hand.2
    simp only [globAfter, List.foldl_cons, if_neg hc]
    exact ih d x h

/-- globAfter is unchanged by rows whose name is different. -/
theorem globAfter_of_forall_ne (k : String) :
    ∀ (rows : List (String × ℚ)) (d x : ℚ), (∀ r ∈ rows, r.1 ≠ k) → globAfter rows k d x = x := by
  intro rows
  induction rows with
  | nil => intro d x h; rfl
  | cons r rs ih =>
    intro d x h
    have hr : r.1 ≠ k := h r (List.mem_cons_self r rs)
    have hc : ¬ (r.1 = k ∧ x = d) := fun hand => hr hand.1
    simp only [globAfter, List.foldl_cons, if_neg hc]
    exact ih d x (fun r2 hm => h r2 (List.mem_cons_of_mem r hm))

/-- With at most one row named k, globAfter applies that row only when the
accumulator equals the default. -/
theorem globAfter_of_unique (k : String) :
    ∀ (rows : List (String × ℚ)) (d x : ℚ),
      rows.countP (fun r => r.1 == k) ≤ 1 →
      globAfter rows k d x =
        if x = d then ((rows.find? (fun r => r.1 == k)).map (fun r => r.2)).getD x else x := by
  intro rows
  induction rows with
  | nil => intro d x h; simp [globAfter]
  | cons r rs ih =>
    intro d x h
    by_cases hr : r.1 = k
    · have hcount : rs.countP (fun r : String × ℚ => r.1 == k) = 0 := by
        rw [List.countP_cons,
          if_pos (show ((fun r : String × ℚ => r.1 == k) r) = true by simp [hr])] at h
        omega
      have hall : ∀ r2 ∈ rs, r2.1 ≠ k := by
        intro r2 hm hk2
        have hnp := List.countP_eq_zero.mp hcount r2 hm
        simp [hk2] at hnp
      have hfind : List.find? (fun r : String × ℚ => r.1 == k) (r :: rs) = some r := by
        simp [hr]
      by_cases hx : x = d
      · simp only [globAfter, List.foldl_cons, if_pos (And.intro hr hx), hfind, if_pos hx]
        simpa using globAfter_of_forall_ne k rs d r.2 hall
      · simp only [globAfter, List.foldl_cons,
          if_neg (fun hand : r.1 = k ∧ x = d => hx hand.2), if_neg hx]
        exact globAfter_of_forall_ne k rs d x hall
    · have hpr : ¬ ((fun r : String × ℚ => r.1 == k) r = true) := by simp [hr]
      have hrest : rs.countP (fun r : String × ℚ => r.1 == k) ≤ 1 := by
        rw [List.countP_cons, if_neg hpr] at h
        omega
      have hfind : List.find? (fun r : String × ℚ => r.1 == k) (r :: rs)
          = List.find? (fun r : String × ℚ => r.1 == k) rs := by
        simp [hr]
      simp only [globAfter, List.foldl_cons,
        if_neg (fun hand : r.1 = k ∧ x = d => hr hand.1), hfind]
      exact ih d x hrest

/-- After replacing every (g, k) row by value v, the guild-filtered residue
for name k is v when such a row exists, else the start value. -/
theorem lastVal_map_replace (g k : String) (v : ℚ) :
    ∀ (T : List (String × String × ℚ)) (d : ℚ),
      lastVal (((T.map (fun r => if r.1 == g && r.2.1 == k then (g, k, v) else r)).filter
        (fun r => r.1 == g)).map (fun r => r.2)) k d =
        if T.any (fun r => r.1 == g && r.2.1 == k) then v else d := by
  intro T
  induction T with
  | nil => intro d; simp [lastVal]
  | cons r rs ih =>
    intro d
    by_cases hp : (r.1 == g && r.2.1 == k) = true
    · have hgk : r.1 = g ∧ r.2.1 = k := by
        simpa [Bool.and_eq_true] using hp
      simp only [List.map_cons, if_pos hp, List.any_cons, hp, Bool.true_or, if_true]
      rw [List.filter_cons, if_pos (show (((g, k, v) : String × String × ℚ).1 == g) = true by simp)]
      simp only [List.map_cons, lastVal, List.foldl_cons, eq_self_iff_true, if_true]
      have hv := ih v
      simp only [lastVal] at hv
      rw [hv]
      by_cases ha : rs.any (fun r => r.1 == g && r.2.1 == k) = true <;> simp [ha]
    · have hp2 : (r.1 == g && r.2.1 == k) = false := by
        simpa using hp
      simp only [List.map_cons, if_neg hp, List.any_cons]
      simp only [hp2, Bool.false_or]
      by_cases hg : (r.1 == g) = true
      · rw [List.filter_cons, if_pos hg]
        have hnk : r.2.1 ≠ k := by
          intro hc
          have hgg : r.1 = g := by simpa using hg
          exact hp (by simp [hgg, hc])
        simp only [List.map_cons, lastVal, List.foldl_cons, if_neg hnk]
        exact ih d
      · rw [List.filter_cons, if_neg hg]
        exact ih d

/-- Replacing (g, k) rows does not change the guild-filtered residue of any
other name. -/
theorem lastVal_map_replace_other (g k k2 : String) (v : ℚ) (hk : k2 ≠ k) :
    ∀ (T : List (String × String × ℚ)) (d : ℚ),
      lastVal (((T.map (fun r => if r.1 == g && r.2.1 == k then (g, k, v) else r)).filter
        (fun r => r.1 == g)).map (fun r => r.2)) k2 d
      = lastVal ((T.filter (fun r => r.1 == g)).map (fun r => r.2)) k2 d := by
  intro T
  induction T with
  | nil => intro d; rfl
  | cons r rs ih =>
    intro d
    by_cases hp : (r.1 == g && r.2.1 == k) = true
    · have hgk : r.1 = g ∧ r.2.1 = k := by
        simpa [Bool.and_eq_true] using hp
      have hg : (r.1 == g) = true := by simp [hgk.1]
      simp only [List.map_cons, if_pos hp]
      rw [List.filter_cons, if_pos (show (((g, k, v) : String × String × ℚ).1 == g) = true by simp)]
      rw [List.filter_cons, if_pos hg]
      simp only [List.map_cons, lastVal, List.foldl_cons,
        if_neg (fun hc : k = k2 => hk hc.symm),
        if_neg (fun hc : r.2.1 = k2 => hk (hgk.2 ▸ hc).symm)]
      exact ih d
    · simp only [List.map_cons, if_neg hp]
      by_cases hg : (r.1 == g) = true
      · rw [List.filter_cons, if_pos hg, List.filter_cons, if_pos hg]
        simp only [List.map_cons, lastVal, List.foldl_cons]
        have := ih (if r.2.1 = k2 then r.2.2 else d)
        simpa [lastVal] using this
      · rw [List.filter_cons, if_neg hg, List.filter_cons, if_neg hg]
        exact ih d

/-- After SetGuild upserts (g, k, v), the guild-filtered residue for k is v. -/
theorem lastVal_upsert_self (T : List (String × String × ℚ)) (g k : String) (v d : ℚ) :
    lastVal (((upsertRow T g k v).filter (fun r => r.1 == g)).map (fun r => r.2)) k d = v := by
  unfold upsertRow
  by_cases hany : T.any (fun r => r.1 == g && r.2.1 == k) = true
  · rw [if_pos hany, lastVal_map_replace g k v T d, if_pos hany]
  · rw [if_neg hany]
    rw [List.filter_append, List.filter_cons,
      if_pos (show (((g, k, v) : String × String × ℚ).1 == g) = true by simp)]
    simp only [List.filter_nil, List.map_append, List.map_cons, List.map_nil,
      lastVal, List.foldl_append, List.foldl_cons, List.foldl_nil, eq_self_iff_true, if_true]

/-- SetGuild upserting (g, k, v) leaves the guild-filtered residue of every
other name unchanged. -/
theorem lastVal_upsert_other (T : List (String × String × ℚ)) (g k k2 : String)
    (v d : ℚ) (hk : k2 ≠ k) :
    lastVal (((upsertRow T g k v).filter (fun r => r.1 == g)).map (fun r => r.2)) k2 d
      = lastVal ((T.filter (fun r => r.1 == g)).map (fun r => r.2)) k2 d := by
  unfold upsertRow
  by_cases hany : T.any (fun r => r.1 == g && r.2.1 == k) = true
  · rw [if_pos hany]
    exact lastVal_map_replace_other g k k2 v hk T d
  · rw [if_neg hany]
    rw [List.filter_append, List.filter_cons,
      if_pos (show (((g, k, v) : String × String × ℚ).1 == g) = true by simp)]
    simp only [List.filter_nil, List.map_append, List.map_cons, List.map_nil,
      lastVal, List.foldl_append, List.foldl_cons, List.foldl_nil,
      if_neg (fun hc : k = k2 => hk hc.symm)]

/-- Membership in an insertDesc result. -/
theorem mem_insertDesc (r y : HistRow) :
    ∀ (l : List HistRow), y ∈ insertDesc r l ↔ y = r ∨ y ∈ l := by
  intro l
  induction l with
  | nil => simp [insertDesc]
  | cons x xs ih =>
    unfold insertDesc
    split_ifs with h
    · simp [or_comm, or_assoc, or_left_comm]
    · simp only [List.mem_cons, ih]
      tauto

/-- insertDesc preserves sortedness by non-increasing created_at. -/
theorem insertDesc_pairwise (r : HistRow) :
    ∀ (l : List HistRow), l.Pairwise (fun a b => b.created ≤ a.created) →
      (insertDesc r l).Pairwise (fun a b => b.created ≤ a.created) := by
  intro l
  induction l with
  | nil => intro h; simp [insertDesc]
  | cons x xs ih =>
    intro h
    rcases List.pairwise_cons.mp h with ⟨hx, hxs⟩
    unfold insertDesc
    split_ifs with hc
    · refine List.pairwise_cons.mpr ⟨?_, h⟩
      intro y hy
      rcases List.mem_cons.mp hy with rfl | hy2
      · exact hc
      · exact le_trans (hx y hy2) hc
    · refine List.pairwise_cons.mpr ⟨?_, ih hxs⟩
      intro y hy
      rcases (mem_insertDesc r y xs).mp hy with rfl | hy2
      · exact le_of_lt (lt_of_not_le hc)
      · exact hx y hy2

/-- The insertion sort yields a list sorted by non-increasing created_at. -/
theorem sortByCreatedDesc_pairwise :
    ∀ (l : List HistRow),
      (sortByCreatedDesc l).Pairwise (fun a b => b.created ≤ a.created) := by
  intro l
  induction l with
  | nil => simp [sortByCreatedDesc]
  | cons x xs ih =>
    unfold sortByCreatedDesc
    exact insertDesc_pairwise x (sortByCreatedDesc xs) ih

/-- C1: for every set of four scores and four thresholds, the verdict appends
one reason tag per pair with score at or above its threshold (inclusive), in
the fixed order explicit nudity, suggestive nudity, offensive, AI-generated,
and the analysis is allowed exactly when the reason list is empty. -/
theorem verdict_reasons_and_allowed_C1 :
    ∀ (s : Scores) (nsT neT offT aiT : ℚ) (out : JObj),
      (("nudity_explicit" ∈ buildReasons s nsT neT offT aiT) ↔ s.nudityExplicit ≥ neT)
      ∧ (("nudity_suggestive" ∈ buildReasons s nsT neT offT aiT) ↔ s.nuditySuggestive ≥ nsT)
      ∧ (("offensive_symbols" ∈ buildReasons s nsT neT offT aiT) ↔ s.offensive ≥ offT)
      ∧ (("ai_generated_high" ∈ buildReasons s nsT neT offT aiT) ↔ s.aiGenerated ≥ aiT)
      ∧ (buildReasons s nsT neT offT aiT).Sublist
          ["nudity_explicit", "nudity_suggestive", "offensive_symbols", "ai_generated_high"]
      ∧ (AnalyseResult out nsT neT offT aiT).reasons
          = buildReasons (extractScores out) nsT neT offT aiT
      ∧ ((AnalyseResult out nsT neT offT aiT).allowed = true
          ↔ (AnalyseResult out nsT neT offT aiT).reasons = []) := by
  intro s nsT neT offT aiT out
  refine ⟨?_, ?_, ?_, ?_, ?_, ?_, ?_⟩
  · unfold buildReasons
    split_ifs <;> simp_all
  · unfold buildReasons
    split_ifs <;> simp_all
  · unfold buildReasons
    split_ifs <;> simp_all
  · unfold buildReasons
    split_ifs <;> simp_all
  · unfold buildReasons
    split_ifs <;> simp
  · rfl
  · unfold AnalyseResult
    simp [List.isEmpty_iff]

/-- C2 counterexample: on a document whose three explicit sub-fields are all
negative, the source computes nudity_explicit = 0, while the claimed plain
max(sexual_activity, sexual_display, erotica) is -1. -/
theorem extract_plain_max_cex_C2 :
    (extractScores [("nudity", JValue.obj
        [("sexual_activity", JValue.num (-1)),
         ("sexual_display", JValue.num (-1)),
         ("erotica", JValue.num (-1))])]).nudityExplicit = 0
    ∧ specMaxOf3 (-1) (-1) (-1) = -1
    ∧ (0 : ℚ) ≠ -1 := by
  refine ⟨?_, by norm_num [specMaxOf3], by norm_num⟩
  simp +decide [extractScores, getMap, jLookup, getFloat, maxFloat]

/-- C2 amended: nudity_explicit is max(0, sexual_activity, sexual_display,
erotica) and offensive is max(0, the five symbol fields) — the max
aggregations floor at 0; nudity_suggestive is the three-field mean with
divisor always 3; ai_generated is a pass-through; a nil map, a missing key or
a non-numeric field reads as 0, and a wholly empty document extracts all-zero
scores. -/
theorem extract_scores_amended_C2 :
    ∀ out : JObj,
      (extractScores out).nudityExplicit
        = max 0 (specMaxOf3 (getFloat (getMap (some out) "nudity") "sexual_activity")
            (getFloat (getMap (some out) "nudity") "sexual_display")
            (getFloat (getMap (some out) "nudity") "erotica"))
      ∧ (extractScores out).nuditySuggestive
        = (getFloat (getMap (some out) "nudity") "very_suggestive"
            + getFloat (getMap (some out) "nudity") "suggestive"
            + getFloat (getMap (some out) "nudity") "mildly_suggestive") / 3
      ∧ (extractScores out).offensive
        = max 0 (max (getFloat (getMap (some out) "offensive") "nazi")
            (max (getFloat (getMap (some out) "offensive") "asian_swastika")
              (max (getFloat (getMap (some out) "offensive") "confederate")
                (max (getFloat (getMap (some out) "offensive") "supremacist")
                  (getFloat (getMap (some out) "offensive") "terrorist")))))
      ∧ (extractScores out).aiGenerated = getFloat (getMap (some out) "type") "ai_generated"
      ∧ (∀ key : String, getFloat none key = 0)
      ∧ (∀ key txt : String, getFloat (some [(key, JValue.str txt)]) key = 0)
      ∧ extractScores []
          = { nudityExplicit := 0, nuditySuggestive := 0, offensive := 0, aiGenerated := 0 } := by
  intro out
  refine ⟨?_, ?_, ?_, rfl, fun key => rfl, ?_, ?_⟩
  · simp [extractScores, maxFloat_three, specMaxOf3]
  · simp [extractScores, meanFloat_three]
  · simp [extractScores, maxFloat_five]
  · intro key txt
    simp [getFloat, jLookup]
  · simp +decide [extractScores, getMap, getFloat, jLookup, maxFloat, meanFloat]

/-- C10: the extracted NudityExplicit and Offensive scores are never negative
because the max aggregation starts from 0, while the NuditySuggestive mean has
no such floor and is negative for negative inputs. -/
theorem max_floor_mean_no_floor_C10 :
    (∀ out : JObj, 0 ≤ (extractScores out).nudityExplicit ∧ 0 ≤ (extractScores out).offensive)
    ∧ (extractScores [("nudity", JValue.obj
        [("very_suggestive", JValue.num (-1)),
         ("suggestive", JValue.num (-1)),
         ("mildly_suggestive", JValue.num (-1))])]).nuditySuggestive < 0 := by
  constructor
  · intro out
    exact ⟨maxFloat_nonneg _, maxFloat_nonneg _⟩
  · simp +decide [extractScores, getMap, jLookup, getFloat, meanFloat]
    norm_num

/-- C8: parseThresholdValue divides by 100 exactly when the trimmed input
carries a trailing percent sign, returns the parsed number otherwise, fails
exactly when the remaining text does not parse as a number, and never clamps
or rejects out-of-range values — the [0,1] check is the separate caller-side
validation in the set handler. -/
theorem parse_value_C8 :
    (parseThresholdValue "70%" = Except.ok (7/10 : ℚ))
    ∧ (parseThresholdValue "0.7" = Except.ok (7/10 : ℚ))
    ∧ (parseThresholdValue "abc" = Except.error ())
    ∧ (parseThresholdValue "1.5" = Except.ok (3/2 : ℚ))
    ∧ (parseThresholdValue "150%" = Except.ok (3/2 : ℚ))
    ∧ (∀ s : String, parseThresholdValue s =
        match parseFloatQ (stripPercent s) with
        | some f => Except.ok (if strHasSuffix (strTrim s) "%" then f / 100 else f)
        | none => Except.error ())
    ∧ (∀ (db : DB) (g u : String) (now : Int),
        handleThresholdsSet (some db) g u "NudityExplicit" "1.5" now
          = Except.error SetError.badValue) := by
  refine ⟨?_, ?_, ?_, ?_, ?_, ?_, ?_⟩
  · simp +decide [parseThresholdValue, parseFloatQ, splitAtExp, parseMantissa, digitsToNat,
      strTrim, trimChars, strDropLast, strHasSuffix]
    norm_num
  · simp +decide [parseThresholdValue, parseFloatQ, splitAtExp, parseMantissa, digitsToNat,
      strTrim, trimChars, strDropLast, strHasSuffix]
  · simp +decide [parseThresholdValue, parseFloatQ, splitAtExp, parseMantissa, digitsToNat,
      strTrim, trimChars, strDropLast, strHasSuffix]
  · simp +decide [parseThresholdValue, parseFloatQ, splitAtExp, parseMantissa, digitsToNat,
      strTrim, trimChars, strDropLast, strHasSuffix]
    norm_num
  · simp +decide [parseThresholdValue, parseFloatQ, splitAtExp, parseMantissa, digitsToNat,
      strTrim, trimChars, strDropLast, strHasSuffix]
    norm_num
  · intro s
    unfold parseThresholdValue stripPercent
    by_cases hs : strHasSuffix (strTrim s) "%" = true
    · simp only [hs, if_true]
    · simp only [Bool.not_eq_true] at hs
      simp only [hs, Bool.false_eq_true, if_false]
  · intro db g u now
    simp +decide [handleThresholdsSet, parseThresholdValue, parseFloatQ, splitAtExp,
      parseMantissa, digitsToNat, strTrim, trimChars, strDropLast, strHasSuffix]

/-- C9: GetGuildThresholds is total and surfaces no error; a failing guild or
global SELECT is silently discarded — a failing guild read behaves as an empty
guild table, a failing global read as an empty global table, and when both
reads fail the compiled defaults are returned. -/
theorem silent_store_degradation_C9 :
    ∀ (db : DB) (g : String),
      (GetGuildThresholds (some { db with failGuildRead := true, failGlobalRead := true }) g
        = defaultQuad)
      ∧ (GetGuildThresholds (some { db with failGuildRead := true }) g
        = GetGuildThresholds (some { db with guildTable := [], failGuildRead := false }) g)
      ∧ (GetGuildThresholds (some { db with failGlobalRead := true }) g
        = GetGuildThresholds (some { db with globalTable := [], failGlobalRead := false }) g) := by
  intro db g
  unfold GetGuildThresholds queryGuildRows queryGlobalRows
  by_cases hg : g = "" <;>
    cases hfg : db.failGuildRead <;> cases hfp : db.failGlobalRead <;>
      simp [hg, hfg, hfp]

/-- C5 counterexample: tenant "g" has no stored values, yet with a global
override NuditySuggestive = 1/2 present, resolution returns the override, not
the compiled default 3/4. -/
theorem defaults_unknown_tenant_cex_C5 :
    (GetGuildThresholds
        (some ⟨[], [("NuditySuggestive", 1/2)], [], false, false, false⟩) "g").1 = 1/2
    ∧ DefaultNuditySuggestiveThreshold = 3/4
    ∧ ((1 : ℚ)/2) ≠ 3/4 := by
  refine ⟨?_, by norm_num [DefaultNuditySuggestiveThreshold], by norm_num⟩
  simp +decide [GetGuildThresholds, queryGuildRows, queryGlobalRows, defaultQuad,
    applyGuildRow, applyGlobalRow, DefaultNuditySuggestiveThreshold,
    DefaultNudityExplicitThreshold, DefaultOffensiveThreshold, DefaultAIGeneratedThreshold]

/-- C5 amended: resolution returns exactly the compiled defaults (0.75, 0.25,
0.25, 0.60) for a tenant with no stored values provided the global table is
also empty; for the empty-string tenant, and when no store is configured, it
returns the compiled defaults unconditionally, independent of the store
contents. -/
theorem defaults_resolution_amended_C5 :
    (∀ (db : DB) (g : String), db.guildTable.filter (fun r => r.1 == g) = [] →
        db.globalTable = [] → GetGuildThresholds (some db) g = defaultQuad)
    ∧ (∀ db : DB, GetGuildThresholds (some db) "" = defaultQuad)
    ∧ (∀ g : String, GetGuildThresholds none g = defaultQuad)
    ∧ defaultQuad = (0.75, 0.25, 0.25, 0.60) := by
  refine ⟨?_, ?_, ?_, rfl⟩
  · intro db g hguild hglob
    unfold GetGuildThresholds queryGuildRows queryGlobalRows
    by_cases hg : g = "" <;>
      cases hfg : db.failGuildRead <;> cases hfp : db.failGlobalRead <;>
        simp [hg, hfg, hfp, hguild, hglob]
  · intro db
    unfold GetGuildThresholds
    simp
  · intro g
    rfl

/-- C5 witness: a store that holds values only for another tenant resolves to
the compiled defaults for tenant g. -/
theorem defaults_resolution_witness_C5 :
    GetGuildThresholds
      (some ⟨[("h", "NuditySuggestive", 1/2)], [], [], false, false, false⟩) "g"
      = defaultQuad :=
  defaults_resolution_amended_C5.1
    ⟨[("h", "NuditySuggestive", 1/2)], [], [], false, false, false⟩
    "g" (by decide) rfl

/-- The effective value of a canonical name is its guild-row residue passed
through the default-gated global pass. -/
theorem effective_component (db : DB) (g k : String) (hg : g ≠ "")
    (hfg : db.failGuildRead = false) (hfp : db.failGlobalRead = false)
    (hk : k ∈ canonicalNames) :
    currentGuildThresholdValue (some db) g k
      = globAfter db.globalTable k (defaultThresholdValue k)
          (lastVal (guildRowsFor db g) k (defaultThresholdValue k)) := by
  have hchar := GetGuildThresholds_char db g hg hfg hfp
  simp only [canonicalNames, List.mem_cons, List.mem_singleton, List.not_mem_nil,
    or_false] at hk
  rcases hk with rfl | rfl | rfl | rfl <;>
    simp [currentGuildThresholdValue, defaultThresholdValue, hchar]

/-- C3 counterexample: the tenant explicitly stored NuditySuggestive = 3/4
(the compiled default), a global override 1/2 exists, and the code resolves
to the global 1/2 — while the claimed tenant-first rule yields 3/4. -/
theorem resolution_order_cex_C3 :
    tenantVal ⟨[("g", "NuditySuggestive", 3/4)], [("NuditySuggestive", 1/2)], [],
        false, false, false⟩ "g" "NuditySuggestive" = some (3/4)
    ∧ (GetGuildThresholds
        (some ⟨[("g", "NuditySuggestive", 3/4)], [("NuditySuggestive", 1/2)], [],
          false, false, false⟩) "g").1 = 1/2
    ∧ resolveSpec (some (3/4)) (some (1/2)) DefaultNuditySuggestiveThreshold = 3/4
    ∧ ((1 : ℚ)/2) ≠ 3/4 := by
  refine ⟨?_, ?_, rfl, by norm_num⟩
  · simp +decide [tenantVal, guildRowsFor, List.find?]
  · simp +decide [GetGuildThresholds, queryGuildRows, queryGlobalRows, defaultQuad,
      applyGuildRow, applyGlobalRow, DefaultNuditySuggestiveThreshold,
      DefaultNudityExplicitThreshold, DefaultOffensiveThreshold,
      DefaultAIGeneratedThreshold]
    norm_num

/-- C3 amended: per canonical name, the effective value is the tenant value
when one is set and it differs from the compiled default; a tenant value equal
to the compiled default is indistinguishable from an unset one, so a set
global value takes precedence over it; with no tenant value the global value
(if set) is used, else the compiled default. -/
theorem resolution_order_amended_C3 (db : DB) (g k : String) (hg : g ≠ "")
    (hk : k ∈ canonicalNames)
    (hfg : db.failGuildRead = false) (hfp : db.failGlobalRead = false)
    (huT : (guildRowsFor db g).countP (fun r => r.1 == k) ≤ 1)
    (huG : db.globalTable.countP (fun r => r.1 == k) ≤ 1) :
    currentGuildThresholdValue (some db) g k
      = resolveCode (tenantVal db g k) (globalVal db k) (defaultThresholdValue k) := by
  rw [effective_component db g k hg hfg hfp hk]
  rw [lastVal_of_unique k (guildRowsFor db g) (defaultThresholdValue k) huT]
  rw [globAfter_of_unique k db.globalTable (defaultThresholdValue k) _ huG]
  rcases htv : List.find? (fun r => r.1 == k) (guildRowsFor db g) with _ | r
  · simp [resolveCode, tenantVal, globalVal, htv]
  · simp only [tenantVal, htv, Option.map_some, Option.getD_some]
    by_cases hd : r.2 = defaultThresholdValue k
    · simp [resolveCode, globalVal, hd]
    · simp [resolveCode, globalVal, hd]

/-- C3 witness: tenant value 1/2 differs from the default, so it wins over a
global override 3/10. -/
theorem resolution_order_witness_C3 :
    currentGuildThresholdValue
      (some ⟨[("g", "NuditySuggestive", 1/2)], [("NuditySuggestive", 3/10)], [],
        false, false, false⟩) "g" "NuditySuggestive"
      = resolveCode
          (tenantVal ⟨[("g", "NuditySuggestive", 1/2)], [("NuditySuggestive", 3/10)], [],
            false, false, false⟩ "g" "NuditySuggestive")
          (globalVal ⟨[("g", "NuditySuggestive", 1/2)], [("NuditySuggestive", 3/10)], [],
            false, false, false⟩ "NuditySuggestive")
          (defaultThresholdValue "NuditySuggestive") :=
  resolution_order_amended_C3
    ⟨[("g", "NuditySuggestive", 1/2)], [("NuditySuggestive", 3/10)], [], false, false, false⟩
    "g" "NuditySuggestive" (by decide) (by decide) rfl rfl
    (by decide) (by decide)

/-- C4 counterexample: setting AIGenerated to 0.60 (the compiled default) for
tenant g and resolving immediately returns the global override 0.30, not the
value just set. -/
theorem set_roundtrip_cex_C4 :
    DefaultAIGeneratedThreshold = 0.60
    ∧ currentGuildThresholdValue
        (SetGuild (some ⟨[], [("AIGenerated", 0.30)], [], false, false, false⟩)
          "g" "AIGenerated" 0.60) "g" "AIGenerated" = 0.30
    ∧ ((0.30 : ℚ)) ≠ 0.60 := by
  refine ⟨rfl, ?_, by norm_num⟩
  simp +decide [SetGuild, upsertRow, currentGuildThresholdValue, GetGuildThresholds,
    queryGuildRows, queryGlobalRows, defaultQuad, applyGuildRow, applyGlobalRow,
    DefaultNuditySuggestiveThreshold, DefaultNudityExplicitThreshold,
    DefaultOffensiveThreshold, DefaultAIGeneratedThreshold]

/-- C4 amended: for a configured store, a non-empty tenant, and a canonical
name, set(tenant, name, v) followed by resolution reads back v for that name —
provided v differs from the compiled default or no global override exists for
that name (a v equal to the default yields to a global override) — and leaves
the other three effective values unchanged. -/
theorem set_roundtrip_amended_C4 (db : DB) (g k : String) (v : ℚ)
    (hg : g ≠ "") (hk : k ∈ canonicalNames) (hv0 : 0 ≤ v) (hv1 : v ≤ 1)
    (hfg : db.failGuildRead = false) (hfp : db.failGlobalRead = false)
    (hnc : v ≠ defaultThresholdValue k ∨ globalVal db k = none) :
    ∃ db2 : DB, SetGuild (some db) g k v = some db2
      ∧ currentGuildThresholdValue (some db2) g k = v
      ∧ ∀ k2, k2 ∈ canonicalNames → k2 ≠ k →
          currentGuildThresholdValue (some db2) g k2
            = currentGuildThresholdValue (some db) g k2 := by
  refine ⟨{ db with guildTable := upsertRow db.guildTable g k v }, rfl, ?_, ?_⟩
  · rw [effective_component { db with guildTable := upsertRow db.guildTable g k v }
      g k hg hfg hfp hk]
    show globAfter db.globalTable k (defaultThresholdValue k)
      (lastVal (((upsertRow db.guildTable g k v).filter (fun r => r.1 == g)).map
        (fun r => r.2)) k (defaultThresholdValue k)) = v
    rw [lastVal_upsert_self db.guildTable g k v (defaultThresholdValue k)]
    rcases hnc with hv | hglob
    · exact globAfter_of_ne k db.globalTable (defaultThresholdValue k) v hv
    · have hfind : List.find? (fun r => r.1 == k) db.globalTable = none := by
        unfold globalVal at hglob
        exact Option.map_eq_none'.mp hglob
      have hall : ∀ r ∈ db.globalTable, r.1 ≠ k := by
        intro r hm hc
        have hnp := List.find?_eq_none.mp hfind r hm
        simp [hc] at hnp
      exact globAfter_of_forall_ne k db.globalTable (defaultThresholdValue k) v hall
  · intro k2 hk2 hne
    rw [effective_component { db with guildTable := upsertRow db.guildTable g k v }
      g k2 hg hfg hfp hk2,
      effective_component db g k2 hg hfg hfp hk2]
    show globAfter db.globalTable k2 (defaultThresholdValue k2)
        (lastVal (((upsertRow db.guildTable g k v).filter (fun r => r.1 == g)).map
          (fun r => r.2)) k2 (defaultThresholdValue k2))
      = globAfter db.globalTable k2 (defaultThresholdValue k2)
        (lastVal ((db.guildTable.filter (fun r => r.1 == g)).map
          (fun r => r.2)) k2 (defaultThresholdValue k2))
    rw [lastVal_upsert_other db.guildTable g k k2 v (defaultThresholdValue k2) hne]

/-- C4 witness: with an empty store, setting AIGenerated to 1/2 for tenant g
reads back 1/2 and leaves the other three names at their previous values. -/
theorem set_roundtrip_witness_C4 :
    ∃ db2 : DB,
      SetGuild (some ⟨[], [], [], false, false, false⟩) "g" "AIGenerated" (1/2) = some db2
      ∧ currentGuildThresholdValue (some db2) "g" "AIGenerated" = 1/2
      ∧ ∀ k2, k2 ∈ canonicalNames → k2 ≠ "AIGenerated" →
          currentGuildThresholdValue (some db2) "g" k2
            = currentGuildThresholdValue
                (some ⟨[], [], [], false, false, false⟩) "g" k2 :=
  set_roundtrip_amended_C4 ⟨[], [], [], false, false, false⟩ "g" "AIGenerated" (1/2)
    (by decide) (by decide) (by norm_num) (by norm_num) rfl rfl (Or.inr rfl)

/-- C6 counterexample: the alias "ai" is not one of the four canonical names,
yet set succeeds (normalizing it to AIGenerated) instead of failing with the
unknown-threshold error. -/
theorem set_alias_accepted_cex_C6 :
    ("ai" ∉ canonicalNames)
    ∧ handleThresholdsSet (some ⟨[], [], [], false, false, false⟩) "g" "u" "ai" "0.5" 0
        ≠ Except.error SetError.unknownThreshold := by
  have hres : handleThresholdsSet (some ⟨[], [], [], false, false, false⟩) "g" "u" "ai" "0.5" 0
      = Except.ok (some ⟨[("g", "AIGenerated", 1/2)], [],
          [⟨"AIGenerated", some (3/5), 1/2, "u", "g", 0⟩], false, false, false⟩) := by
    simp +decide [handleThresholdsSet, parseThresholdValue, parseFloatQ, splitAtExp,
      parseMantissa, digitsToNat, strTrim, trimChars, strDropLast, strHasSuffix, strToLower,
      canonicalThresholdName, currentGuildThresholdValue, GetGuildThresholds, defaultQuad,
      queryGuildRows, queryGlobalRows, SetGuild, upsertRow, LogChange,
      DefaultNuditySuggestiveThreshold, DefaultNudityExplicitThreshold,
      DefaultOffensiveThreshold, DefaultAIGeneratedThreshold]
    norm_num [DB.mk.injEq, HistRow.mk.injEq]
  refine ⟨by decide, ?_⟩
  rw [hres]
  simp

/-- C6 amended: the set handler rejects, with the unknown-threshold error, any
name that does not normalize (case-insensitively, aliases accepted) to a
canonical name; for a recognized name it upserts the tenant-scoped value via
SetGuild and appends the audit row only through the separate LogChange call;
SetGuild itself never touches the audit history. -/
theorem set_validation_audit_amended_C6 (db : DB) (g u nameRaw valueRaw : String)
    (now : Int) (v : ℚ)
    (hname : strTrim nameRaw ≠ "") (hval : strTrim valueRaw ≠ "")
    (hparse : parseThresholdValue (strTrim valueRaw) = Except.ok v)
    (hv0 : 0 ≤ v) (hv1 : v ≤ 1) :
    (canonicalThresholdName (strTrim nameRaw) = none →
        handleThresholdsSet (some db) g u nameRaw valueRaw now
          = Except.error SetError.unknownThreshold)
    ∧ (∀ k, canonicalThresholdName (strTrim nameRaw) = some k →
        handleThresholdsSet (some db) g u nameRaw valueRaw now
          = Except.ok (some { db with
              guildTable := upsertRow db.guildTable g k v,
              history := db.history
                ++ [⟨k, some (currentGuildThresholdValue (some db) g k), v, u, g, now⟩] }))
    ∧ (∀ (db2 : DB) (g2 k2 : String) (v2 : ℚ) (db3 : DB),
        SetGuild (some db2) g2 k2 v2 = some db3 → db3.history = db2.history) := by
  have hrange : ¬ (v < 0 ∨ v > 1) := by
    push_neg
    exact ⟨hv0, hv1⟩
  refine ⟨?_, ?_, ?_⟩
  · intro hcn
    simp only [handleThresholdsSet, if_neg (not_or.mpr ⟨hname, hval⟩), hparse,
      if_neg hrange, hcn]
  · intro k hcn
    simp only [handleThresholdsSet, if_neg (not_or.mpr ⟨hname, hval⟩), hparse,
      if_neg hrange, hcn, SetGuild, LogChange]
  · intro db2 g2 k2 v2 db3 h
    simp only [SetGuild] at h
    have he := Option.some.inj h
    rw [← he]

/-- C6 witness: the alias "explicit" normalizes to NudityExplicit and the set
path writes the value and one audit row. -/
theorem set_validation_audit_witness_C6 :
    handleThresholdsSet (some ⟨[], [], [], false, false, false⟩) "g" "u" "explicit" "0.5" 7
      = Except.ok (some { (⟨[], [], [], false, false, false⟩ : DB) with
          guildTable := upsertRow ([] : List (String × String × ℚ)) "g" "NudityExplicit" (1/2),
          history := ([] : List HistRow)
            ++ [⟨"NudityExplicit",
                some (currentGuildThresholdValue
                  (some ⟨[], [], [], false, false, false⟩) "g" "NudityExplicit"),
                1/2, "u", "g", 7⟩] }) :=
  (set_validation_audit_amended_C6 ⟨[], [], [], false, false, false⟩ "g" "u" "explicit" "0.5" 7
      (1/2) (by decide) (by decide)
      (by simp +decide [parseThresholdValue, parseFloatQ, splitAtExp, parseMantissa,
        digitsToNat, strTrim, trimChars, strDropLast, strHasSuffix]
          norm_num)
      (by norm_num) (by norm_num)).2.1
    "NudityExplicit"
    (by simp +decide [canonicalThresholdName, strTrim, trimChars, strToLower])

/-- C7: history for a guild is returned newest first (pairwise non-increasing
created_at), never exceeds the effective limit, a limit outside (0, 100] is
replaced by the default 10 rather than rejected, and with no configured store
the result is an empty list with no error. -/
theorem history_limit_order_C7 :
    (∀ (db : DB) (g : String) (limit : Int) (rows : List HistRow),
        HistoryForGuild (some db) g limit = Except.ok rows →
          rows.Pairwise (fun a b => b.created ≤ a.created)
          ∧ rows.length ≤ (if limit ≤ 0 ∨ 100 < limit then (10 : Int) else limit).toNat)
    ∧ (∀ (ps : Option DB) (g : String) (limit : Int),
        limit ≤ 0 ∨ 100 < limit → HistoryForGuild ps g limit = HistoryForGuild ps g 10)
    ∧ (∀ (g : String) (limit : Int), HistoryForGuild none g limit = Except.ok []) := by
  refine ⟨?_, ?_, ?_⟩
  · intro db g limit rows h
    simp only [HistoryForGuild] at h
    by_cases hf : db.failHistoryRead = true
    · rw [if_pos hf] at h
      exact absurd h (by simp)
    · rw [if_neg hf] at h
      have he := (Except.ok.inj h).symm
      rw [he]
      constructor
      · exact List.Pairwise.sublist (List.take_sublist _ _) (sortByCreatedDesc_pairwise _)
      · exact List.length_take_le _ _
  · intro ps g limit hout
    cases ps with
    | none => rfl
    | some db =>
      simp only [HistoryForGuild]
      rw [if_pos hout, if_neg (by norm_num : ¬ ((10 : Int) ≤ 0 ∨ 100 < (10 : Int)))]
  · intro g limit
    rfl

/-- C7 witness: with two rows for tenant g and limit 1, the single returned
row is sorted and respects the limit. -/
theorem history_limit_witness_C7 :
    ([⟨"B", none, 1, "u", "g", 9⟩] : List HistRow).Pairwise
        (fun a b => b.created ≤ a.created)
    ∧ ([⟨"B", none, 1, "u", "g", 9⟩] : List HistRow).length
        ≤ (if (1 : Int) ≤ 0 ∨ 100 < (1 : Int) then (10 : Int) else 1).toNat :=
  history_limit_order_C7.1
    ⟨[], [], [⟨"A", none, 1, "u", "g", 5⟩, ⟨"B", none, 1, "u", "g", 9⟩], false, false, false⟩
    "g" 1 [⟨"B", none, 1, "u", "g", 9⟩]
    (by simp +decide [HistoryForGuild, sortByCreatedDesc, insertDesc])
